import Mathlib

/-!
Verification of the mpv-subtitleminer orchestration layer.

Part I embeds the mpv-side process supervisor
(`src/mpv/mpv-subtitleminer.lua`): port probing (`try_start_on_port`),
exit/stderr classification, the confirmation timer, `stop_server` and the
shutdown handler.

Part II embeds the browser client (`src/unnamed/part_002`, with
`parseSubtitleMessage` shared by `src/unnamed/part_001`): the bounded
subtitle store, the contiguous selection toggle, the keyed request
de-duplication of `requestMediaFromServer` / `requestAudioRange`, their
poll/timeout resolution, the same-port guard on batched range requests,
and the inbound subtitle decoder.

Numbers that flow through the client unchanged (ids, timestamps) are
modelled as rationals; JavaScript performs no arithmetic on them in the
code under study, so this is exact.
-/

/-! ## Part I: the mpv supervisor (src/mpv/mpv-subtitleminer.lua) -/

/-- Lua's `string.find(s, pat)` as used in the exit callback: every pattern
passed there (`"Address already in use"`, `"os error 98"`, `"os error 10048"`,
`"MPV_IPC_PID_MISMATCH"`, `"Failed to connect to mpv socket"`,
`"Failed to connect to mpv pipe"`) is magic-character-free, so `find` is
plain substring containment. -/
def luaFind (hay needle : String) : Bool :=
  decide (needle.toList <:+: hay.toList)

/-- Lines 206-208: `is_port_error` — the platform socket-in-use signals. -/
def is_port_error (stderr_text : String) : Bool :=
  luaFind stderr_text "Address already in use" ||
  luaFind stderr_text "os error 98" ||
  luaFind stderr_text "os error 10048"

/-- The four ways the exit callback classifies a process exit. -/
inductive ExitClass where
  | identityMismatch
  | unreachable
  | portInUse
  | unexpectedExit
deriving DecidableEq

/-- Lines 205-243: the branch order of the exit callback.  `is_port_error`
is computed first (line 206) but acted on last (line 239): the
`MPV_IPC_PID_MISMATCH` branch (line 223) and the connect-failure branch
(line 232) both `return` before the port-in-use retry is reached. -/
def classify_exit (stderr_text : String) : ExitClass :=
  if luaFind stderr_text "MPV_IPC_PID_MISMATCH" then .identityMismatch
  else if luaFind stderr_text "Failed to connect to mpv socket" ||
          luaFind stderr_text "Failed to connect to mpv pipe" then .unreachable
  else if is_port_error stderr_text then .portInUse
  else .unexpectedExit

/-- What the exit callback does after classification: whether
`try_start_on_port(port_index + 1)` is invoked, and which OSD notice (if
any) is shown.  `was_confirmed_running` is the value of `server_running`
captured on entry (line 196). -/
structure ExitAction where
  retry_next_port : Bool
  notice : Option String
deriving DecidableEq

/-- Lines 223-257 of the exit callback, as a function of the captured
stderr text and of `was_confirmed_running`. -/
def exit_action (stderr_text : String) (was_confirmed_running : Bool) : ExitAction :=
  match classify_exit stderr_text with
  | .identityMismatch =>
      { retry_next_port := false
        notice := some "[mpv-subtitleminer]: IPC socket is in use by another mpv instance\nSet a unique input-ipc-server per instance" }
  | .unreachable =>
      { retry_next_port := false
        notice := some "[mpv-subtitleminer]: can't connect to mpv IPC socket" }
  | .portInUse =>
      { retry_next_port := true, notice := none }
  | .unexpectedExit =>
      if was_confirmed_running then
        { retry_next_port := false, notice := some "[mpv-subtitleminer] server stopped" }
      else
        { retry_next_port := false, notice := none }

/-- Outcome of one spawn attempt in the port-probe loop: either the helper
exits with a port-in-use signal (`is_port_error` true, neither terminal
marker present), or it stays up and the 500 ms confirmation timer fires.
The terminal stderr markers end the loop without retrying and are treated
by `classify_exit` / `exit_action`; claim C1 concerns only these two
signals. -/
inductive ProbeOutcome where
  | portInUse
  | staysUp
deriving DecidableEq

/-- The state the probe loop ends in: which ports were attempted (in
order), the `server_process` handle, the `server_running` flag set by the
confirmation timer, and whether the candidate list was exhausted
(line 170: `port_index > #opts.ports`). -/
structure ProbeResult where
  attempted : List Nat
  server_process : Option Nat
  server_running : Bool
  exhausted : Bool
deriving DecidableEq

/-- Lines 169-275: `try_start_on_port`, recursing through the remaining
candidate ports.  `outcome i` is the fate of the spawn at (0-based)
index `i`: on `portInUse` the exit callback clears the handle and calls
`try_start_on_port(port_index + 1)` (line 241); on `staysUp` the startup
timer fires and sets `server_running = true` (lines 263-270). -/
def try_start_on_port (outcome : Nat → ProbeOutcome) : Nat → List Nat → ProbeResult
  | _, [] => { attempted := [], server_process := none, server_running := false, exhausted := true }
  | i, p :: rest =>
    match outcome i with
    | .staysUp =>
      { attempted := [p], server_process := some p, server_running := true, exhausted := false }
    | .portInUse =>
      let r := try_start_on_port outcome (i + 1) rest
      { attempted := p :: r.attempted
        server_process := r.server_process
        server_running := r.server_running
        exhausted := r.exhausted }

/-- The script-level mutable state of the supervisor (lines 156-159):
`server_process`, `server_running`, the armed/disarmed `startup_timer`,
and `current_port`. -/
structure LuaState where
  server_process : Option Nat
  server_running : Bool
  startup_timer : Bool
  current_port : Option Nat
deriving DecidableEq

/-- Lines 176-270 of `try_start_on_port` on a successful spawn: record the
port, set the process handle, arm the one-shot confirmation timer. -/
def spawn_step (port : Nat) (s : LuaState) : LuaState :=
  { server_process := some port
    server_running := s.server_running
    startup_timer := true
    current_port := some port }

/-- Lines 263-270: the confirmation timer fires (only possible while it is
armed): it disarms itself and, if the process handle is still present,
marks the server confirmed running. -/
def timer_fire (s : LuaState) : LuaState :=
  if s.startup_timer then
    { s with startup_timer := false
             server_running := s.server_process.isSome || s.server_running }
  else s

/-- Lines 289-302: `stop_server`.  If no process, a no-op notice.  Else it
clears the handle and the running flag and aborts the process
(fire-and-forget).  Note: it does NOT touch `startup_timer`. -/
def stop_server_step (s : LuaState) : LuaState :=
  if s.server_process = none then s
  else { s with server_process := none, server_running := false }

/-- Lines 196-203: the prefix of every exit callback run: capture
`was_confirmed_running`, clear the running flag and the handle, and kill
the startup timer if armed. -/
def exit_cb_entry (s : LuaState) : LuaState :=
  { s with server_running := false, server_process := none, startup_timer := false }

/-- Lines 321-330: the `shutdown` event handler kills the startup timer if
armed (the process abort it also requests is completed later by the
asynchronous exit callback). -/
def shutdown_step (s : LuaState) : LuaState :=
  { s with startup_timer := false }

/-- The initial supervisor state: no process, not running, no timer. -/
def luaInit : LuaState :=
  { server_process := none, server_running := false, startup_timer := false, current_port := none }

/-! ## Part II: the browser client (src/unnamed/part_002) -/

/-- The `SubtitleMessage` interface (lines 202-212).  `thumbnail` and
`audio` are the lazily attached media blobs (base64 strings). -/
structure SubtitleMessage where
  id : Rat
  subtitle : String
  time_pos : Rat
  sub_start : Rat
  sub_end : Rat
  thumbnail : Option String := none
  audio : Option String := none
  sourcePort : Nat
  uid : String
deriving DecidableEq

/-- Lines 267-269 of the subtitle branch of `onMessage`: push the parsed
message, then if the store grew past 200, shift off the oldest. -/
def insertSubtitle (messages : List SubtitleMessage) (m : SubtitleMessage) : List SubtitleMessage :=
  let grown := messages ++ [m]
  if 200 < grown.length then grown.tail else grown

/-- The two pieces of client state claim C5 relates: the item store
`messages` and the selection set `selectedMessages` (a JS `Set` of uids,
kept here as its insertion-ordered element list). -/
structure AppState where
  messages : List SubtitleMessage
  selectedMessages : List String
deriving DecidableEq

/-- The whole effect of the subtitle branch (lines 265-272) on the state of
claim C5: the store is pushed/shifted; `selectedMessages` is not read or
written anywhere in `onMessage`. -/
def onSubtitle (st : AppState) (m : SubtitleMessage) : AppState :=
  { st with messages := insertSubtitle st.messages m }

/-- `messages.findIndex((m) => m.uid === selId)` kept as an `Option`;
`none` plays the role of JavaScript's `-1`. -/
def msgIndexOf (messages : List SubtitleMessage) (u : String) : Option Nat :=
  messages.findIdx? (fun m => m.uid == u)

/-- The comparator key of `getSelectionRange` (lines 425-427): raw
`findIndex`, with `-1` for a uid absent from the store. -/
def jsIndexOf (messages : List SubtitleMessage) (u : String) : Int :=
  match msgIndexOf messages u with
  | some n => (n : Int)
  | none => -1

/-- Lines 384-387 / 396-399 before sorting: map each selected uid to its
store index and drop the `-1`s (`.filter((i) => i !== -1)`). -/
def selectionPositions (messages : List SubtitleMessage) (selected : List String) : List Nat :=
  (selected.map (msgIndexOf messages)).filterMap id

/-- The sorted index list `selectedIndices` (`.sort((a, b) => a - b)`). -/
def selectedIndicesOf (messages : List SubtitleMessage) (selected : List String) : List Nat :=
  List.insertionSort (· ≤ ·) (selectionPositions messages selected)

/-- Lines 379-410: `toggleSelection(msg, index)` on the uid list of the
selection set.  `index` is the position the click handler passes (the
message's index in the rendered store).  JavaScript reads
`selectedIndices[0]` / `selectedIndices[length - 1]`, which are
`undefined` on an empty list: comparing `index === undefined` is false,
and in the add branch `?? index` substitutes `index` itself.  A `Set.add`
appends in insertion order, hence `selected ++ [id]`; `index === minIdx - 1`
is stated as `index + 1 = minIdx`, which agrees with the JavaScript
integer comparison for every `minIdx ≥ 0`. -/
def toggleSelection (messages : List SubtitleMessage) (selected : List String)
    (uid : String) (index : Nat) : List String :=
  if uid ∈ selected then
    let idxs := selectedIndicesOf messages selected
    if idxs.head? = some index ∨ idxs.getLast? = some index then
      selected.erase uid
    else selected
  else
    if selected.isEmpty then selected ++ [uid]
    else
      let idxs := selectedIndicesOf messages selected
      let minIdx := idxs.head?.getD index
      let maxIdx := idxs.getLast?.getD index
      if index + 1 = minIdx ∨ index = maxIdx + 1 then selected ++ [uid]
      else selected

/-- Lines 416-418: `getSelectedMessages` filters the store, in store
order, by membership in the selection set. -/
def getSelectedMessages (messages : List SubtitleMessage) (selected : List String) :
    List SubtitleMessage :=
  messages.filter (fun m => m.uid ∈ selected)

/-- Lines 420-435: `getSelectionRange` sorts the selected messages by
store index and returns the first and last. -/
def getSelectionRange (messages : List SubtitleMessage) (selected : List String) :
    Option (SubtitleMessage × SubtitleMessage) :=
  let sel := getSelectedMessages messages selected
  if sel.length = 0 then none
  else
    let sorted := List.insertionSort
      (fun a b => jsIndexOf messages a.uid ≤ jsIndexOf messages b.uid) sel
    match sorted.head?, sorted.getLast? with
    | some f, some l => some (f, l)
    | _, _ => none

/-- The toast/throw message of both same-port guards (lines 576 and 676). -/
def sameConnErrMsg : String :=
  "Selected subtitles must come from the same connection for audio."

/-- An outbound `audio_range` request: (port, start_id, end_id).  Producing
a `.ok` value is the model's network transmission; `.error` models the
rejection paths (toast / thrown error) in which nothing is sent. -/
def RangeRequest : Type := Nat × Rat × Rat

/-- Lines 568-584: `requestSelectionAudioRange`.  The `selectionRange`
computed property is `null` when fewer than 2 uids are selected
(line 438), and the function returns without doing anything on `null`.
Otherwise all selected messages must share the first one's `sourcePort`,
else the error toast is shown and nothing is transmitted. -/
def requestSelectionAudioRange (messages : List SubtitleMessage) (selected : List String) :
    Option (Except String RangeRequest) :=
  if selected.length < 2 then none
  else
    match getSelectionRange messages selected with
    | none => none
    | some (first, last) =>
      let selectedMsgs := getSelectedMessages messages selected
      if selectedMsgs.all (fun m => m.sourcePort == first.sourcePort) then
        some (.ok (first.sourcePort, first.id, last.id))
      else
        some (.error sameConnErrMsg)

/-- Lines 631-689, restricted to the audio branch of `sendSelectionToAnki`:
with no selected messages or no range the export does nothing; with more
than one selected message the same-port guard runs first and a mismatch
throws `sameConnErrMsg` before `requestAudioRange` can transmit; a single
selected message never issues a range request. -/
def sendSelectionToAnkiAudio (messages : List SubtitleMessage) (selected : List String) :
    Option (Except String RangeRequest) :=
  let selectedMsgs := getSelectedMessages messages selected
  if selectedMsgs.length = 0 then none
  else
    match getSelectionRange messages selected with
    | none => none
    | some (first, last) =>
      if 1 < selectedMsgs.length then
        if selectedMsgs.all (fun m => m.sourcePort == first.sourcePort) then
          some (.ok (first.sourcePort, first.id, last.id))
        else
          some (.error sameConnErrMsg)
      else none

/-- The de-duplication key of a correlated request, the tuple behind the
string keys `thumb-PORT-ID[-ENDID]`, `audio-PORT-ID[-ENDID]` and
`audio_range-PORT-STARTID-ENDID` built at lines 746 and 811. -/
structure ReqKey where
  kind : String
  port : Nat
  primaryId : Rat
  secondaryId : Option Rat
deriving DecidableEq

/-- The correlator state claims C3 observes: `loading` is the set of keys
with `loadingMedia[key]` currently true, `sent` the log of network
transmissions (`ws.send` calls that returned true). -/
structure CorrState where
  loading : List ReqKey
  sent : List ReqKey
deriving DecidableEq

/-- The synchronous prefix of `requestMediaFromServer` (lines 740-781) and
`requestAudioRange` (lines 805-852), which runs atomically on the event
loop before any awaiting:
if the socket layer is not connected, resolve immediately (no state
change); if `loadingMedia[key]` is already set, join the pending entry
(no send); otherwise set the marker and transmit — and if the send
returns false, the marker is deleted again and nothing was transmitted. -/
def issue (st : CorrState) (k : ReqKey) (connected : Bool) (sendOk : Bool) : CorrState :=
  if connected = false then st
  else if k ∈ st.loading then st
  else if sendOk then { loading := k :: st.loading, sent := k :: st.sent }
  else st

/-- Which flavour of request a waiter issued: `single` for
`requestMediaFromServer` (10000 ms deadline, lines 761-764 and 792-796),
`range` for `requestAudioRange` (15000 ms, lines 830-833 and 868-872). -/
inductive ReqKind where
  | single
  | range
deriving DecidableEq

/-- The caller's deadline in ticks of the 100 ms poll interval. -/
def deadlineTicks : ReqKind → Nat
  | .single => 100
  | .range => 150

/-- One caller awaiting a keyed request: when it joined, whether it is the
sender (the caller that set the marker and transmitted; joiners only
poll), and its resolution — `none` while waiting, `some v` once its
promise resolved with `v`. -/
structure Waiter where
  joinTime : Nat
  isSender : Bool
  result : Option (Option String) := none
deriving DecidableEq

/-- The per-key wait state: the clock (in 100 ms ticks), the
`loadingMedia[key]` marker, the resolved media slot the inbound handler
writes, and the callers. -/
structure WaitState where
  time : Nat
  loading : Bool
  media : Option String
  waiters : List Waiter
deriving DecidableEq

/-- One waiter's view of a tick, from the poll interval and timeout
callbacks of lines 748-764 and 782-796: a resolved promise stays
resolved; a caller polls only from the tick it joined; the interval
resolves with the media once present; a joiner whose marker was cleared
resolves with `none` (line 755); and at the caller's own deadline the
timeout resolves with whatever is present. -/
def pollWaiter (kind : ReqKind) (now : Nat) (loading : Bool) (media : Option String)
    (w : Waiter) : Waiter :=
  if w.result.isSome then w
  else if now < w.joinTime then w
  else if media.isSome then { w with result := some media }
  else if w.isSender = false && loading = false then { w with result := some none }
  else if now = w.joinTime + deadlineTicks kind then { w with result := some media }
  else w

/-- One 100 ms tick of the event loop for a single key.  `arrive t` is the
inbound message schedule: when the response lands, the `onMessage`
handler stores the media and deletes `loadingMedia[key]` (lines 280-289 /
296-298).  The sender's `setTimeout` is never cancelled, so at the
sender's deadline the marker is deleted unconditionally (lines 792-796);
the callbacks due at a tick then run with the updated marker. -/
def stepWait (kind : ReqKind) (arrive : Nat → Option String) (st : WaitState) : WaitState :=
  let t := st.time
  let media := match arrive t with
    | some d => some d
    | none => st.media
  let loadingA := match arrive t with
    | some _ => false
    | none => st.loading
  let loadingB :=
    if st.waiters.any (fun w => w.isSender && (t == w.joinTime + deadlineTicks kind)) then false
    else loadingA
  { time := t + 1
    loading := loadingB
    media := media
    waiters := st.waiters.map (pollWaiter kind t loadingB media) }

/-- `n` ticks of the event loop. -/
def runWait (kind : ReqKind) (arrive : Nat → Option String) (st : WaitState) : Nat → WaitState
  | 0 => st
  | n + 1 => stepWait kind arrive (runWait kind arrive st n)

/-- The concrete scenario of claims C6: a sender issues a `single` request
at tick 0 (setting the marker) and a second caller joins the same key at
tick 5 s = tick 50. -/
def waitScenario : WaitState :=
  { time := 0
    loading := true
    media := none
    waiters := [ { joinTime := 0, isSender := true }
               , { joinTime := 50, isSender := false } ] }

/-- The JSON values the inbound decoder inspects.  JavaScript's
`typeof v === 'number'` together with `Number.isFinite(v)` distinguishes
finite numbers (`jnum true`) from `NaN`/`Infinity` (`jnum false`);
arrays and objects (never numbers or strings) are collapsed into
`jother`. -/
inductive JsonValue where
  | jnull
  | jbool (b : Bool)
  | jnum (isFinite : Bool) (val : Rat)
  | jstr (s : String)
  | jother
deriving DecidableEq

/-- A decoded JSON object as its field list. -/
def JsonObject : Type := List (String × JsonValue)

/-- Lines 338-340: `asNumber` — a finite number or `null`. -/
def asNumber (v : Option JsonValue) : Option Rat :=
  match v with
  | some (.jnum true q) => some q
  | _ => none

/-- Lines 342-344: `asString`. -/
def asString (v : Option JsonValue) : Option String :=
  match v with
  | some (.jstr s) => some s
  | _ => none

/-- Lines 346-358 (identical in src/unnamed/part_001 lines 357-369):
`parseSubtitleMessage`.  `id`, `subtitle`, `sub_start`, `sub_end` are
required; a missing or non-finite `time_pos` falls back to `sub_start`
(`time_pos ?? sub_start`). -/
def parseSubtitleMessage (d : JsonObject) (port : Nat) : Option SubtitleMessage :=
  let id := asNumber (List.lookup "id" d)
  let subtitle := asString (List.lookup "subtitle" d)
  let sub_start := asNumber (List.lookup "sub_start" d)
  let sub_end := asNumber (List.lookup "sub_end" d)
  let time_pos := asNumber (List.lookup "time_pos" d)
  match id, subtitle, sub_start, sub_end with
  | some i, some s, some ss, some se =>
    some { id := i, subtitle := s, time_pos := time_pos.getD ss, sub_start := ss, sub_end := se
           sourcePort := port, uid := s!"{port}-{i}" }
  | _, _, _, _ => none

/-- `index ∈ l` and no selected position is smaller: "the minimal selected
position" of claim C4. -/
def isMinOf (x : Nat) (l : List Nat) : Prop :=
  x ∈ l ∧ ∀ y ∈ l, x ≤ y

/-- `index ∈ l` and no selected position is larger: "the maximal selected
position" of claim C4. -/
def isMaxOf (x : Nat) (l : List Nat) : Prop :=
  x ∈ l ∧ ∀ y ∈ l, y ≤ x

/-- A fixed store of 200 subtitle items on port 61777 with uids
`61777-0` … `61777-199`, the concrete input of claim C5. -/
def mkStoreMsg (i : Nat) : SubtitleMessage :=
  { id := i, subtitle := "s", time_pos := 0, sub_start := 0, sub_end := 0
    sourcePort := 61777, uid := s!"61777-{i}" }

/-- A full (200-item) store. -/
def capMsgs : List SubtitleMessage :=
  (List.range 200).map mkStoreMsg

/-- A concrete request key for exercising the de-duplication path. -/
def ckey : ReqKey :=
  { kind := "audio", port := 61777, primaryId := 5, secondaryId := none }

/-- A small concrete subtitle item for exercising the selection logic. -/
def wMsg (i : Nat) (port : Nat) : SubtitleMessage :=
  { id := i, subtitle := "w", time_pos := 0, sub_start := 0, sub_end := 0
    sourcePort := port, uid := s!"{port}-{i}" }

/-- Four items from one connection, in store order. -/
def wmsgs : List SubtitleMessage :=
  [wMsg 1 7, wMsg 2 7, wMsg 3 7, wMsg 4 7]

/-- Two items from two different connections. -/
def wmixed : List SubtitleMessage :=
  [wMsg 1 7, wMsg 2 8]

/-- A concrete inbound subtitle object whose `time_pos` is a non-finite
number (JavaScript `Infinity`), with `sub_start = 5`. -/
def dInf : JsonObject :=
  [ ("id", .jnum true 3), ("subtitle", .jstr "x"), ("sub_start", .jnum true 5)
  , ("sub_end", .jnum true 6), ("time_pos", .jnum false 9) ]

/-- What the decoder stores for `dInf`: `time_pos` fell back to `sub_start`. -/
def msgInf : SubtitleMessage :=
  { id := 3, subtitle := "x", time_pos := 5, sub_start := 5, sub_end := 6
    sourcePort := 7, uid := "7-3" }

/-! ## Theorems -/

/-- Exhaustion: if every remaining spawn reports a port-in-use signal, the
probe walks the whole suffix and ends exhausted with no process handle. -/
theorem try_start_exhaust_aux (outcome : Nat → ProbeOutcome) :
    ∀ (ports : List Nat) (i : Nat),
      (∀ j, j < ports.length → outcome (i + j) = .portInUse) →
      try_start_on_port outcome i ports =
        { attempted := ports, server_process := none, server_running := false, exhausted := true }
  | [], _, _ => rfl
  | p :: rest, i, h => by
    have h0 : outcome i = .portInUse := by simpa using h 0 (by simp)
    have ih := try_start_exhaust_aux outcome rest (i + 1) (fun j hj => by
      have hs := h (j + 1) (by simpa using Nat.succ_lt_succ hj)
      rwa [show i + (j + 1) = i + 1 + j by omega] at hs)
    simp [try_start_on_port, h0, ih]

/-- Success after `k` busy ports: the probe attempts exactly the first
`k + 1` remaining ports and confirms on the last of them. -/
theorem try_start_confirm_aux (outcome : Nat → ProbeOutcome) :
    ∀ (ports : List Nat) (i k : Nat) (hk : k < ports.length),
      (∀ j, j < k → outcome (i + j) = .portInUse) →
      outcome (i + k) = .staysUp →
      try_start_on_port outcome i ports =
        { attempted := ports.take (k + 1), server_process := some (ports.get ⟨k, hk⟩),
          server_running := true, exhausted := false }
  | [], _, k, hk, _, _ => absurd hk (Nat.not_lt_zero k)
  | p :: rest, i, 0, _, _, hup => by
    have h0 : outcome i = .staysUp := by simpa using hup
    simp [try_start_on_port, h0]
  | p :: rest, i, k + 1, hk, hbusy, hup => by
    have h0 : outcome i = .portInUse := by simpa using hbusy 0 (Nat.succ_pos k)
    have ih := try_start_confirm_aux outcome rest (i + 1) k
      (by simpa using Nat.lt_of_succ_lt_succ hk)
      (fun j hj => by
        have hs := hbusy (j + 1) (Nat.succ_lt_succ hj)
        rwa [show i + (j + 1) = i + 1 + j by omega] at hs)
      (by rwa [show i + 1 + k = i + (k + 1) by omega])
    simp [try_start_on_port, h0, ih]

/-- C1: starting from index 0, if the spawns at the first `k` candidate
ports each exit with a port-in-use signal and the spawn at the next
candidate stays up, the supervisor attempts exactly the first `k + 1`
ports of the list in order and ends confirmed running on the `(k + 1)`-st
(0-based index `k`); if all candidates report port-in-use, it terminates
exhausted (line 170) with no process handle. -/
theorem claim_C1_port_probe (ports : List Nat) (outcome : Nat → ProbeOutcome) :
    (∀ k (hk : k < ports.length),
       (∀ j, j < k → outcome j = .portInUse) → outcome k = .staysUp →
       try_start_on_port outcome 0 ports =
         { attempted := ports.take (k + 1), server_process := some (ports.get ⟨k, hk⟩),
           server_running := true, exhausted := false }) ∧
    ((∀ j, j < ports.length → outcome j = .portInUse) →
       try_start_on_port outcome 0 ports =
         { attempted := ports, server_process := none, server_running := false,
           exhausted := true }) := by
  constructor
  · intro k hk hbusy hup
    exact try_start_confirm_aux outcome ports 0 k hk (by simpa using hbusy) (by simpa using hup)
  · intro h
    exact try_start_exhaust_aux outcome ports 0 (by simpa using h)

/-- Witness for C1 on the default candidate list: one busy port then a
successful one, and the all-busy run. -/
theorem claim_C1_port_probe_witness :
    try_start_on_port (fun j => if j = 0 then .portInUse else .staysUp) 0 [61777, 61778, 61779] =
      { attempted := [61777, 61778], server_process := some 61778,
        server_running := true, exhausted := false } ∧
    try_start_on_port (fun _ => .portInUse) 0 [61777, 61778, 61779] =
      { attempted := [61777, 61778, 61779], server_process := none,
        server_running := false, exhausted := true } := by
  constructor
  · have h := (claim_C1_port_probe [61777, 61778, 61779]
      (fun j => if j = 0 then .portInUse else .staysUp)).1 1 (by decide)
      (by decide) (by decide)
    simpa using h
  · exact (claim_C1_port_probe [61777, 61778, 61779] (fun _ => .portInUse)).2 (by decide)

/-- C2 counterexample: a stderr text that contains the "address already in
use" substring is NOT classified as a port-in-use exit (and triggers no
retry) when the identity-mismatch marker is also present — the
`MPV_IPC_PID_MISMATCH` branch at line 223 returns before the
`is_port_error` branch at line 239 is reached. -/
theorem claim_C2_counterexample :
    is_port_error "Address already in use MPV_IPC_PID_MISMATCH" = true ∧
    classify_exit "Address already in use MPV_IPC_PID_MISMATCH" = .identityMismatch ∧
    (exit_action "Address already in use MPV_IPC_PID_MISMATCH" false).retry_next_port = false := by
  decide

/-- C2 (amended): exits are classified by substring matching on the stderr
text, with the identity-mismatch marker taking precedence over the
connect-failure markers, which take precedence over the socket-in-use
substrings; only a PortInUse classification retries the next candidate
port; IdentityMismatch and Unreachable are terminal with their own
notices; anything else is UnexpectedExit, reported only after
confirmation. -/
theorem claim_C2_exit_classification (s : String) (b : Bool) :
    (classify_exit s = .identityMismatch ↔ luaFind s "MPV_IPC_PID_MISMATCH" = true) ∧
    (classify_exit s = .unreachable ↔
       (luaFind s "MPV_IPC_PID_MISMATCH" = false ∧
        (luaFind s "Failed to connect to mpv socket" = true ∨
         luaFind s "Failed to connect to mpv pipe" = true))) ∧
    (classify_exit s = .portInUse ↔
       (luaFind s "MPV_IPC_PID_MISMATCH" = false ∧
        luaFind s "Failed to connect to mpv socket" = false ∧
        luaFind s "Failed to connect to mpv pipe" = false ∧
        is_port_error s = true)) ∧
    ((exit_action s b).retry_next_port = true ↔ classify_exit s = .portInUse) ∧
    ((exit_action s b).notice.isSome = true ↔
       (classify_exit s = .identityMismatch ∨ classify_exit s = .unreachable ∨
        (classify_exit s = .unexpectedExit ∧ b = true))) := by
  cases hm : luaFind s "MPV_IPC_PID_MISMATCH" <;>
    cases hs : luaFind s "Failed to connect to mpv socket" <;>
      cases hp : luaFind s "Failed to connect to mpv pipe" <;>
        cases hu : is_port_error s <;>
          cases b <;>
            simp [classify_exit, exit_action, hm, hs, hp, hu]

/-- C8: an exit classified UnexpectedExit produces a user-facing notice
exactly when `server_running` was true when the exit callback ran, i.e.
when the confirmation timer had marked the instance running. -/
theorem claim_C8_unexpected_exit_report (s : String) (b : Bool)
    (h : classify_exit s = .unexpectedExit) :
    (exit_action s b).notice.isSome = b := by
  unfold exit_action
  rw [h]
  cases b <;> rfl

/-- Witness for C8: an unexpected exit text is reported after confirmation
and silent before it. -/
theorem claim_C8_unexpected_exit_report_witness :
    (exit_action "thread panicked at main.rs" true).notice.isSome = true ∧
    (exit_action "thread panicked at main.rs" false).notice.isSome = false := by
  constructor
  · exact claim_C8_unexpected_exit_report "thread panicked at main.rs" true (by decide)
  · exact claim_C8_unexpected_exit_report "thread panicked at main.rs" false (by decide)

/-- C9 counterexample: `stop_server` (lines 289-302) does not cancel the
armed confirmation timer — after a spawn followed by `stop_server`, the
timer is still armed, and firing it actually runs its callback (the state
changes: the timer disarms itself).  The claim that the timer is
cancelled before it can fire on `stop()` is therefore false. -/
theorem claim_C9_counterexample :
    (stop_server_step (spawn_step 61777 luaInit)).startup_timer = true ∧
    timer_fire (stop_server_step (spawn_step 61777 luaInit)) ≠
      stop_server_step (spawn_step 61777 luaInit) := by
  decide

/-- C9 (amended): the exit callback and the shutdown handler do cancel the
timer before it can fire; `stop_server` does not, but it clears the
process handle, so a timer that fires after `stop_server` finds no
process and never marks the server confirmed running. -/
theorem claim_C9_timer_cancellation (s : LuaState) :
    (exit_cb_entry s).startup_timer = false ∧
    (shutdown_step s).startup_timer = false ∧
    (stop_server_step s).server_process = none ∧
    (timer_fire (stop_server_step s)).server_running =
      (stop_server_step s).server_running := by
  refine ⟨rfl, rfl, ?_, ?_⟩
  · unfold stop_server_step
    split
    · assumption
    · rfl
  · have hproc : (stop_server_step s).server_process = none := by
      unfold stop_server_step
      split
      · assumption
      · rfl
    unfold timer_fire
    split
    · simp [hproc]
    · rfl

/-- C3: the synchronous `loadingMedia` check de-duplicates keyed requests:
while a key is marked pending, a further `issue` for it changes nothing
(no new transmission — the caller just joins); and two back-to-back
`issue` calls for a fresh key transmit exactly once. -/
theorem claim_C3_request_dedup (st : CorrState) (k : ReqKey) (sendOk : Bool) :
    (k ∈ st.loading → issue st k true sendOk = st) ∧
    (k ∉ st.loading →
       issue (issue st k true true) k true sendOk = issue st k true true ∧
       (issue (issue st k true true) k true sendOk).sent.count k = st.sent.count k + 1) := by
  constructor
  · intro hk
    simp [issue, hk]
  · intro hk
    have h1 : issue st k true true = { loading := k :: st.loading, sent := k :: st.sent } := by
      simp [issue, hk]
    have h2 : issue (issue st k true true) k true sendOk = issue st k true true := by
      rw [h1]
      simp [issue]
    refine ⟨h2, ?_⟩
    rw [h2, h1]
    exact List.count_cons_self k st.sent

/-- Witness for C3: issuing the same fresh key twice from the empty state
transmits exactly once, and the second call leaves the state untouched. -/
theorem claim_C3_request_dedup_witness :
    issue (issue { loading := [], sent := [] } ckey true true) ckey true true =
      issue { loading := [], sent := [] } ckey true true ∧
    (issue (issue { loading := [], sent := [] } ckey true true) ckey true true).sent.count ckey
      = 1 := by
  have h := (claim_C3_request_dedup { loading := [], sent := [] } ckey true).2 (by simp)
  exact ⟨h.1, by simpa using h.2⟩

set_option maxRecDepth 20000 in
/-- C5 counterexample: with a full store whose oldest item (uid `61777-0`)
is selected, the arrival of a 201st subtitle evicts that item from the
store, yet its uid is still in the selection set — the subtitle branch of
`onMessage` (lines 265-272) never adjusts `selectedMessages`, so the
selection is left referencing a missing item. -/
theorem claim_C5_counterexample :
    "61777-0" ∈
      (onSubtitle { messages := capMsgs, selectedMessages := ["61777-0"] }
        (mkStoreMsg 200)).selectedMessages ∧
    ((onSubtitle { messages := capMsgs, selectedMessages := ["61777-0"] }
        (mkStoreMsg 200)).messages.all (fun m => m.uid != "61777-0")) = true := by
  decide

/-- C5 (amended): the store never exceeds 200 items and the 201st insert
evicts the oldest, but the selection set is not adjusted on eviction (it
may keep the evicted uid); the selected-message reads filter against the
current store, so no missing item is ever produced by them. -/
theorem claim_C5_store_cap (st : AppState) (m : SubtitleMessage) :
    (st.messages.length ≤ 200 → (onSubtitle st m).messages.length ≤ 200) ∧
    (st.messages.length = 200 →
       (onSubtitle st m).messages = st.messages.tail ++ [m]) ∧
    (onSubtitle st m).selectedMessages = st.selectedMessages ∧
    (∀ x ∈ getSelectedMessages st.messages st.selectedMessages, x ∈ st.messages) := by
  refine ⟨?_, ?_, rfl, ?_⟩
  · intro hle
    simp only [onSubtitle, insertSubtitle]
    split
    · simp only [List.length_tail, List.length_append, List.length_singleton]
      omega
    · next hlt =>
      simp only [List.length_append, List.length_singleton] at hlt ⊢
      omega
  · intro hlen
    simp only [onSubtitle, insertSubtitle]
    rw [if_pos (by simp [hlen])]
    cases hm : st.messages with
    | nil => rw [hm] at hlen; simp at hlen
    | cons a t => simp
  · intro x hx
    exact (List.mem_filter.mp hx).1

/-- Witness for C5: inserting a 201st item into the full concrete store
drops the oldest item and appends the new one. -/
theorem claim_C5_store_cap_witness :
    (onSubtitle { messages := capMsgs, selectedMessages := ["61777-0"] }
        (mkStoreMsg 200)).messages = capMsgs.tail ++ [mkStoreMsg 200] := by
  exact (claim_C5_store_cap { messages := capMsgs, selectedMessages := ["61777-0"] }
    (mkStoreMsg 200)).2.1 (by simp [capMsgs])

/-- C10: whenever the subtitle decoder accepts a message, a missing or
non-finite `time_pos` field has been replaced by the parsed `sub_start`
value, and a finite `time_pos` is stored as-is — so every stored item
carries a valid time position. -/
theorem claim_C10_time_pos_fallback (d : JsonObject) (port : Nat) (msg : SubtitleMessage)
    (h : parseSubtitleMessage d port = some msg) :
    (asNumber (List.lookup "time_pos" d) = none →
       asNumber (List.lookup "sub_start" d) = some msg.time_pos ∧
       msg.time_pos = msg.sub_start) ∧
    (∀ q, asNumber (List.lookup "time_pos" d) = some q → msg.time_pos = q) := by
  cases hid : asNumber (List.lookup "id" d) with
  | none => simp [parseSubtitleMessage, hid] at h
  | some i =>
    cases hsub : asString (List.lookup "subtitle" d) with
    | none => simp [parseSubtitleMessage, hid, hsub] at h
    | some sstr =>
      cases hss : asNumber (List.lookup "sub_start" d) with
      | none => simp [parseSubtitleMessage, hid, hsub, hss] at h
      | some ss =>
        cases hse : asNumber (List.lookup "sub_end" d) with
        | none => simp [parseSubtitleMessage, hid, hsub, hss, hse] at h
        | some se =>
          cases htp : asNumber (List.lookup "time_pos" d) with
          | none =>
            simp only [parseSubtitleMessage, hid, hsub, hss, hse, htp, Option.getD_none,
              Option.some.injEq] at h
            subst h
            exact ⟨fun _ => ⟨rfl, rfl⟩, fun q hq => Option.noConfusion hq⟩
          | some tp =>
            simp only [parseSubtitleMessage, hid, hsub, hss, hse, htp, Option.getD_some,
              Option.some.injEq] at h
            subst h
            exact ⟨fun hnone => Option.noConfusion hnone, fun q hq => Option.some.inj hq⟩

/-- Witness for C10: a concrete message with an infinite `time_pos` parses
with `time_pos` equal to its `sub_start`. -/
theorem claim_C10_time_pos_fallback_witness :
    parseSubtitleMessage dInf 7 = some msgInf ∧ msgInf.time_pos = msgInf.sub_start := by
  have h : parseSubtitleMessage dInf 7 = some msgInf := by decide
  exact ⟨h, ((claim_C10_time_pos_fallback dInf 7 msgInf h).1 (by decide)).2⟩

/-- Any list containing two distinct elements has length at least two. -/
theorem two_mem_le_length {α : Type} {a b : α} {l : List α}
    (ha : a ∈ l) (hb : b ∈ l) (hne : a ≠ b) : 2 ≤ l.length := by
  cases l with
  | nil => cases ha
  | cons x t =>
    rcases List.mem_cons.mp ha with rfl | hat
    · rcases List.mem_cons.mp hb with rfl | hbt
      · exact absurd rfl hne
      · have hp := List.length_pos_of_mem hbt
        simp only [List.length_cons]
        omega
    · have hp := List.length_pos_of_mem hat
      simp only [List.length_cons]
      omega

/-- C7: whenever the current selection contains items from two different
source ports, both batched range operations — the range-audio playback
and the audio branch of the Anki export — reject with the explicit
same-connection error, and no `audio_range` request payload (`.ok`) is
produced, i.e. nothing is transmitted. -/
theorem claim_C7_mixed_ports_rejected (messages : List SubtitleMessage) (selected : List String)
    (m1 m2 : SubtitleMessage)
    (hnd : (messages.map (fun m => m.uid)).Nodup)
    (h1 : m1 ∈ getSelectedMessages messages selected)
    (h2 : m2 ∈ getSelectedMessages messages selected)
    (hport : m1.sourcePort ≠ m2.sourcePort) :
    requestSelectionAudioRange messages selected = some (.error sameConnErrMsg) ∧
    sendSelectionToAnkiAudio messages selected = some (.error sameConnErrMsg) := by
  have hne : m1 ≠ m2 := fun h => hport (by rw [h])
  have h1m : m1 ∈ messages := (List.mem_filter.mp h1).1
  have h2m : m2 ∈ messages := (List.mem_filter.mp h2).1
  have h1s : m1.uid ∈ selected := by
    have hb := (List.mem_filter.mp h1).2
    simpa using hb
  have h2s : m2.uid ∈ selected := by
    have hb := (List.mem_filter.mp h2).2
    simpa using hb
  have huid : m1.uid ≠ m2.uid := fun h => hne (List.inj_on_of_nodup_map hnd h1m h2m h)
  have hsel2 : 2 ≤ selected.length := two_mem_le_length h1s h2s huid
  have hlen2 : 2 ≤ (getSelectedMessages messages selected).length := two_mem_le_length h1 h2 hne
  have hsorted_ne :
      List.insertionSort (fun a b => jsIndexOf messages a.uid ≤ jsIndexOf messages b.uid)
        (getSelectedMessages messages selected) ≠ [] := by
    intro hemp
    have hl := List.length_insertionSort
      (fun a b => jsIndexOf messages a.uid ≤ jsIndexOf messages b.uid)
      (getSelectedMessages messages selected)
    rw [hemp] at hl
    simp at hl
    omega
  obtain ⟨f, rest, heq⟩ := List.exists_cons_of_ne_nil hsorted_ne
  have hhead :
      (List.insertionSort (fun a b => jsIndexOf messages a.uid ≤ jsIndexOf messages b.uid)
        (getSelectedMessages messages selected)).head? = some f := by
    rw [heq]; rfl
  obtain ⟨lst, hlast⟩ :
      ∃ lst, (List.insertionSort (fun a b => jsIndexOf messages a.uid ≤ jsIndexOf messages b.uid)
        (getSelectedMessages messages selected)).getLast? = some lst := by
    cases hl : (List.insertionSort (fun a b => jsIndexOf messages a.uid ≤ jsIndexOf messages b.uid)
        (getSelectedMessages messages selected)).getLast? with
    | none => exact absurd (List.getLast?_eq_none_iff.mp hl) hsorted_ne
    | some x => exact ⟨x, rfl⟩
  have hrange : getSelectionRange messages selected = some (f, lst) := by
    simp only [getSelectionRange]
    rw [if_neg (by omega), hhead, hlast]
  have hall :
      ((getSelectedMessages messages selected).all
        (fun m => m.sourcePort == f.sourcePort)) = false := by
    cases hav : (getSelectedMessages messages selected).all
        (fun m => m.sourcePort == f.sourcePort) with
    | false => rfl
    | true =>
      have ha1 := List.all_eq_true.mp hav m1 h1
      have ha2 := List.all_eq_true.mp hav m2 h2
      rw [Nat.beq_eq_true_eq] at ha1 ha2
      exact absurd (ha1.trans ha2.symm) hport
  constructor
  · simp only [requestSelectionAudioRange]
    rw [if_neg (by omega), hrange]
    simp [hall]
  · simp only [sendSelectionToAnkiAudio]
    rw [if_neg (by omega), hrange]
    have h1lt : 1 < (getSelectedMessages messages selected).length := by omega
    simp [hall, h1lt]

/-- Witness for C7: a two-item selection drawn from ports 7 and 8 is
rejected by both range operations. -/
theorem claim_C7_mixed_ports_rejected_witness :
    requestSelectionAudioRange wmixed ["7-1", "8-2"] = some (.error sameConnErrMsg) ∧
    sendSelectionToAnkiAudio wmixed ["7-1", "8-2"] = some (.error sameConnErrMsg) := by
  exact claim_C7_mixed_ports_rejected wmixed ["7-1", "8-2"] (wMsg 1 7) (wMsg 2 8)
    (by decide) (by decide) (by decide) (by decide)

/-- The clock of the wait model advances one tick per step. -/
theorem runWait_time (kind : ReqKind) (arrive : Nat → Option String) (st : WaitState) :
    ∀ n, (runWait kind arrive st n).time = st.time + n
  | 0 => rfl
  | n + 1 => by
    have ih := runWait_time kind arrive st n
    simp only [runWait, stepWait]
    omega

/-- Polling never changes who a waiter is or when it joined. -/
theorem pollWaiter_fields (kind : ReqKind) (now : Nat) (l : Bool) (m : Option String)
    (w : Waiter) :
    (pollWaiter kind now l m w).joinTime = w.joinTime ∧
    (pollWaiter kind now l m w).isSender = w.isSender := by
  unfold pollWaiter
  split_ifs <;> simp

/-- A resolved waiter stays resolved, with the same value. -/
theorem pollWaiter_resolved (kind : ReqKind) (now : Nat) (l : Bool) (m : Option String)
    (w : Waiter) (h : w.result.isSome = true) :
    (pollWaiter kind now l m w).result = w.result := by
  unfold pollWaiter
  rw [if_pos h]

/-- At a waiter's own deadline tick its promise resolves, whichever branch
of the poll fires. -/
theorem pollWaiter_deadline (kind : ReqKind) (now : Nat) (l : Bool) (m : Option String)
    (w : Waiter) (h : now = w.joinTime + deadlineTicks kind) :
    (pollWaiter kind now l m w).result.isSome = true := by
  unfold pollWaiter
  split_ifs with h1 h2 h3 h4
  · exact h1
  · omega
  · simp
  · simp
  · simp

/-- One tick maps every waiter through its poll. -/
theorem stepWait_waiters (kind : ReqKind) (arrive : Nat → Option String) (st : WaitState) :
    (stepWait kind arrive st).waiters =
      st.waiters.map (pollWaiter kind st.time (stepWait kind arrive st).loading
        (stepWait kind arrive st).media) := rfl

/-- Once the pending marker is cleared it is never re-set. -/
theorem stepWait_loading_mono (kind : ReqKind) (arrive : Nat → Option String) (st : WaitState)
    (h : st.loading = false) : (stepWait kind arrive st).loading = false := by
  simp only [stepWait]
  cases harr : arrive st.time <;> simp [harr, h]

/-- At the sender's deadline tick the pending marker is deleted. -/
theorem stepWait_sender_deadline_clears (kind : ReqKind) (arrive : Nat → Option String)
    (st : WaitState) (w : Waiter) (hw : w ∈ st.waiters) (hs : w.isSender = true)
    (ht : st.time = w.joinTime + deadlineTicks kind) :
    (stepWait kind arrive st).loading = false := by
  have hany : (st.waiters.any fun x => x.isSender && (st.time == x.joinTime + deadlineTicks kind))
      = true := by
    rw [List.any_eq_true]
    exact ⟨w, hw, by simp [hs, ht]⟩
  simp only [stepWait]
  simp [hany]

/-- Every waiter is resolved once its own deadline tick has been
processed, whatever the arrival schedule. -/
theorem wait_resolved_aux (kind : ReqKind) (arrive : Nat → Option String) (st0 : WaitState)
    (h0 : st0.time = 0) :
    ∀ n, ∀ w ∈ (runWait kind arrive st0 n).waiters,
      w.joinTime + deadlineTicks kind < n → w.result.isSome = true := by
  intro n
  induction n with
  | zero => intro w _ hlt; omega
  | succ n ih =>
    intro w' hw' hlt
    rw [runWait, stepWait_waiters] at hw'
    rcases List.mem_map.mp hw' with ⟨w, hwmem, rfl⟩
    have hj := (pollWaiter_fields kind (runWait kind arrive st0 n).time
      (stepWait kind arrive (runWait kind arrive st0 n)).loading
      (stepWait kind arrive (runWait kind arrive st0 n)).media w).1
    by_cases hres : w.result.isSome = true
    · rw [pollWaiter_resolved _ _ _ _ _ hres]
      exact hres
    · have htime : (runWait kind arrive st0 n).time = n := by
        rw [runWait_time, h0, Nat.zero_add]
      rw [hj] at hlt
      rcases Nat.lt_succ_iff_lt_or_eq.mp hlt with hlt2 | heq
      · exact absurd (ih w hwmem hlt2) hres
      · exact pollWaiter_deadline _ _ _ _ _ (by omega)

/-- A sender with join time `J` is present in every later state. -/
theorem wait_sender_persists (kind : ReqKind) (arrive : Nat → Option String) (st0 : WaitState)
    (J : Nat) (hex : ∃ w ∈ st0.waiters, w.isSender = true ∧ w.joinTime = J) :
    ∀ n, ∃ w ∈ (runWait kind arrive st0 n).waiters, w.isSender = true ∧ w.joinTime = J := by
  intro n
  induction n with
  | zero => exact hex
  | succ n ih =>
    rcases ih with ⟨w, hw, hs, hj⟩
    refine ⟨pollWaiter kind (runWait kind arrive st0 n).time
      (stepWait kind arrive (runWait kind arrive st0 n)).loading
      (stepWait kind arrive (runWait kind arrive st0 n)).media w, ?_, ?_, ?_⟩
    · rw [runWait, stepWait_waiters]
      exact List.mem_map_of_mem _ hw
    · rw [(pollWaiter_fields kind (runWait kind arrive st0 n).time
        (stepWait kind arrive (runWait kind arrive st0 n)).loading
        (stepWait kind arrive (runWait kind arrive st0 n)).media w).2]
      exact hs
    · rw [(pollWaiter_fields kind (runWait kind arrive st0 n).time
        (stepWait kind arrive (runWait kind arrive st0 n)).loading
        (stepWait kind arrive (runWait kind arrive st0 n)).media w).1]
      exact hj

/-- The pending marker is cleared once the sender's deadline tick has been
processed. -/
theorem wait_loading_clear_aux (kind : ReqKind) (arrive : Nat → Option String) (st0 : WaitState)
    (h0 : st0.time = 0) (J : Nat)
    (hex : ∃ w ∈ st0.waiters, w.isSender = true ∧ w.joinTime = J) :
    ∀ n, J + deadlineTicks kind < n → (runWait kind arrive st0 n).loading = false := by
  intro n
  induction n with
  | zero => intro hlt; omega
  | succ n ih =>
    intro hlt
    rcases Nat.lt_succ_iff_lt_or_eq.mp hlt with hlt2 | heq
    · rw [runWait]
      exact stepWait_loading_mono _ _ _ (ih hlt2)
    · rcases wait_sender_persists kind arrive st0 J hex n with ⟨w, hw, hs, hj⟩
      rw [runWait]
      refine stepWait_sender_deadline_clears _ _ _ w hw hs ?_
      rw [runWait_time, h0, hj]
      omega

set_option maxRecDepth 20000 in
/-- C6 counterexample: with a sender joining at tick 0 and a second caller
joining the same single-item key at tick 50 (5 s) and no response ever
arriving, the pending marker is already cleared — and every caller,
including the joiner, already resolved — at tick 101, well before the
last waiter's deadline at tick 50 + 100 = 150.  The marker is cleared at
the sender's deadline (lines 792-796), not when the last waiter's
deadline passes, and the joiner resolves with no data at that earlier
moment (line 755). -/
theorem claim_C6_counterexample :
    (runWait .single (fun _ => none) waitScenario 101).loading = false ∧
    ((runWait .single (fun _ => none) waitScenario 101).waiters.all
      (fun w => w.result.isSome)) = true ∧
    101 < 50 + deadlineTicks .single := by
  decide

/-- C6 (amended): every caller of `requestMediaFromServer` /
`requestAudioRange` has its own timeout (10 s for single-item requests,
15 s for ranges, counted from when it joined) and is resolved no later
than its own deadline tick, for every arrival schedule — no caller ever
blocks past its deadline; and the pending marker is cleared no later than
the SENDER's (first caller's) deadline — not the last waiter's — after
which late joiners observe the cleared marker and resolve with no data. -/
theorem claim_C6_deadline_resolution (kind : ReqKind) (arrive : Nat → Option String)
    (st0 : WaitState) (h0 : st0.time = 0) :
    (∀ n, ∀ w ∈ (runWait kind arrive st0 n).waiters,
       w.joinTime + deadlineTicks kind < n → w.result.isSome = true) ∧
    (∀ n J, (∃ w ∈ st0.waiters, w.isSender = true ∧ w.joinTime = J) →
       J + deadlineTicks kind < n → (runWait kind arrive st0 n).loading = false) :=
  ⟨wait_resolved_aux kind arrive st0 h0,
    fun n J hex hlt => wait_loading_clear_aux kind arrive st0 h0 J hex n hlt⟩

set_option maxRecDepth 40000 in
/-- Witness for C6: in the concrete two-caller scenario every caller is
resolved by tick 151 and the marker is cleared by tick 101. -/
theorem claim_C6_deadline_resolution_witness :
    ((runWait .single (fun _ => none) waitScenario 151).waiters.all
      (fun w => w.result.isSome)) = true ∧
    (runWait .single (fun _ => none) waitScenario 101).loading = false := by
  have hmain := claim_C6_deadline_resolution .single (fun _ => none) waitScenario rfl
  constructor
  · rw [List.all_eq_true]
    intro w hw
    have hall : ((runWait .single (fun _ => none) waitScenario 151).waiters.all
        (fun x => decide (x.joinTime + deadlineTicks .single < 151))) = true := by decide
    exact hmain.1 151 w hw (of_decide_eq_true (List.all_eq_true.mp hall w hw))
  · exact hmain.2 101 0 ⟨{ joinTime := 0, isSender := true }, by decide, rfl, rfl⟩ (by decide)

/-- The head of a `≤`-sorted list of naturals is exactly its minimum. -/
theorem sorted_head?_iff (l : List Nat) (hs : l.Sorted (· ≤ ·)) (x : Nat) :
    l.head? = some x ↔ isMinOf x l := by
  cases l with
  | nil => simp [isMinOf]
  | cons h t =>
    rw [List.sorted_cons] at hs
    constructor
    · intro he
      injection he with he
      subst he
      exact ⟨List.mem_cons_self h t, fun y hy => by
        rcases List.mem_cons.mp hy with rfl | hyt
        · exact le_refl y
        · exact hs.1 y hyt⟩
    · rintro ⟨hmem, hmin⟩
      rcases List.mem_cons.mp hmem with rfl | hxt
      · rfl
      · have h1 := hs.1 x hxt
        have h2 := hmin h (List.mem_cons_self h t)
        rw [le_antisymm h2 h1]
        rfl

/-- The last element of a `≤`-sorted list of naturals is its maximum. -/
theorem sorted_getLast?_iff :
    ∀ (l : List Nat), l.Sorted (· ≤ ·) → ∀ x, (l.getLast? = some x ↔ isMaxOf x l)
  | [], _, x => by simp [isMaxOf]
  | [a], _, x => by
    constructor
    · intro he
      injection he with he
      subst he
      exact ⟨List.mem_cons_self a [], fun y hy => by
        rcases List.mem_cons.mp hy with rfl | hyt
        · exact le_refl y
        · cases hyt⟩
    · rintro ⟨hmem, _⟩
      rcases List.mem_cons.mp hmem with rfl | hxt
      · rfl
      · cases hxt
  | a :: b :: t, hs, x => by
    rw [List.getLast?_cons_cons]
    rw [List.sorted_cons] at hs
    rw [sorted_getLast?_iff (b :: t) hs.2 x]
    constructor
    · rintro ⟨hmem, hmax⟩
      refine ⟨List.mem_cons_of_mem a hmem, fun y hy => ?_⟩
      rcases List.mem_cons.mp hy with rfl | hyt
      · exact le_trans (hs.1 b (List.mem_cons_self b t)) (hmax b (List.mem_cons_self b t))
      · exact hmax y hyt
    · rintro ⟨hmem, hmax⟩
      rcases List.mem_cons.mp hmem with rfl | hxt
      · have hab : x ≤ b := hs.1 b (List.mem_cons_self b t)
        have hba : b ≤ x := hmax b (List.mem_cons_of_mem x (List.mem_cons_self b t))
        have hxb : x = b := le_antisymm hab hba
        exact ⟨by rw [hxb]; exact List.mem_cons_self b t,
          fun y hy => hmax y (List.mem_cons_of_mem x hy)⟩
      · exact ⟨hxt, fun y hy => hmax y (List.mem_cons_of_mem a hy)⟩

/-- Being the minimum is invariant under permutation. -/
theorem isMinOf_perm {l1 l2 : List Nat} (h : l1.Perm l2) (x : Nat) :
    isMinOf x l1 ↔ isMinOf x l2 :=
  ⟨fun ⟨hm, hmin⟩ => ⟨h.mem_iff.mp hm, fun y hy => hmin y (h.mem_iff.mpr hy)⟩,
   fun ⟨hm, hmin⟩ => ⟨h.mem_iff.mpr hm, fun y hy => hmin y (h.mem_iff.mp hy)⟩⟩

/-- Being the maximum is invariant under permutation. -/
theorem isMaxOf_perm {l1 l2 : List Nat} (h : l1.Perm l2) (x : Nat) :
    isMaxOf x l1 ↔ isMaxOf x l2 :=
  ⟨fun ⟨hm, hmax⟩ => ⟨h.mem_iff.mp hm, fun y hy => hmax y (h.mem_iff.mpr hy)⟩,
   fun ⟨hm, hmax⟩ => ⟨h.mem_iff.mpr hm, fun y hy => hmax y (h.mem_iff.mp hy)⟩⟩

/-- A list has at most one minimum. -/
theorem isMinOf_unique {l : List Nat} {a b : Nat} (ha : isMinOf a l) (hb : isMinOf b l) :
    a = b :=
  le_antisymm (ha.2 b hb.1) (hb.2 a ha.1)

/-- A list has at most one maximum. -/
theorem isMaxOf_unique {l : List Nat} {a b : Nat} (ha : isMaxOf a l) (hb : isMaxOf b l) :
    a = b :=
  le_antisymm (hb.2 a ha.1) (ha.2 b hb.1)

/-- `selectedIndices[0]` is the minimal selected position. -/
theorem selIdx_head_iff (messages : List SubtitleMessage) (selected : List String) (x : Nat) :
    (selectedIndicesOf messages selected).head? = some x ↔
      isMinOf x (selectionPositions messages selected) := by
  unfold selectedIndicesOf
  rw [sorted_head?_iff _ (List.sorted_insertionSort _ _) x]
  exact isMinOf_perm (List.perm_insertionSort _ _) x

/-- `selectedIndices[length - 1]` is the maximal selected position. -/
theorem selIdx_getLast_iff (messages : List SubtitleMessage) (selected : List String) (x : Nat) :
    (selectedIndicesOf messages selected).getLast? = some x ↔
      isMaxOf x (selectionPositions messages selected) := by
  unfold selectedIndicesOf
  rw [sorted_getLast?_iff _ (List.sorted_insertionSort _ _) x]
  exact isMaxOf_perm (List.perm_insertionSort _ _) x

/-- For a non-empty selection whose uids all resolve in the store, the
sorted index list has a head (the minimum) and a last (the maximum). -/
theorem selIdx_nonempty (messages : List SubtitleMessage) (selected : List String)
    (hsel : ∀ u ∈ selected, ∃ m ∈ messages, m.uid = u) (hne : selected ≠ []) :
    ∃ mn mx, (selectedIndicesOf messages selected).head? = some mn ∧
      (selectedIndicesOf messages selected).getLast? = some mx ∧
      isMinOf mn (selectionPositions messages selected) ∧
      isMaxOf mx (selectionPositions messages selected) := by
  obtain ⟨u, hu⟩ : ∃ u, u ∈ selected := by
    cases selected with
    | nil => exact absurd rfl hne
    | cons s rest => exact ⟨s, List.mem_cons_self s rest⟩
  obtain ⟨m, hm, hmu⟩ := hsel u hu
  obtain ⟨j, hj⟩ : ∃ j, msgIndexOf messages u = some j := by
    cases hidx : msgIndexOf messages u with
    | none =>
      rw [msgIndexOf, List.findIdx?_eq_none_iff] at hidx
      have hfalse := hidx m hm
      rw [hmu] at hfalse
      simp at hfalse
    | some j => exact ⟨j, rfl⟩
  have hjmem : j ∈ selectionPositions messages selected := by
    rw [selectionPositions, List.mem_filterMap]
    refine ⟨msgIndexOf messages u, List.mem_map_of_mem _ hu, ?_⟩
    rw [hj]
    rfl
  have hPne : selectionPositions messages selected ≠ [] := List.ne_nil_of_mem hjmem
  have hsne : selectedIndicesOf messages selected ≠ [] := by
    intro hemp
    have hlen := List.length_insertionSort (· ≤ ·) (selectionPositions messages selected)
    rw [selectedIndicesOf] at hemp
    rw [hemp] at hlen
    simp only [List.length_nil] at hlen
    exact hPne (List.length_eq_zero.mp hlen.symm)
  obtain ⟨mn, hmn⟩ : ∃ mn, (selectedIndicesOf messages selected).head? = some mn := by
    cases hh : (selectedIndicesOf messages selected).head? with
    | none => exact absurd (List.head?_eq_none_iff.mp hh) hsne
    | some v => exact ⟨v, rfl⟩
  obtain ⟨mx, hmx⟩ : ∃ mx, (selectedIndicesOf messages selected).getLast? = some mx := by
    cases hh : (selectedIndicesOf messages selected).getLast? with
    | none => exact absurd (List.getLast?_eq_none_iff.mp hh) hsne
    | some v => exact ⟨v, rfl⟩
  exact ⟨mn, mx, hmn, hmx, (selIdx_head_iff messages selected mn).mp hmn,
    (selIdx_getLast_iff messages selected mx).mp hmx⟩

/-- C4: `toggleSelection(msg, index)`, for a message sitting at position
`index` of the store and a selection whose uids all resolve in the store:
a selected uid is removed exactly when its position is the minimal or the
maximal selected position (toggling an interior selected id is a no-op);
an unselected uid turns the empty selection into a singleton; and against
a non-empty selection an unselected uid is added exactly when its
position is one before the minimal or one after the maximal selected
position, any other toggle being a no-op. -/
theorem claim_C4_toggle_contiguity (messages : List SubtitleMessage) (selected : List String)
    (uid : String) (index : Nat)
    (hsel : ∀ u ∈ selected, ∃ m ∈ messages, m.uid = u)
    (hpos : msgIndexOf messages uid = some index) :
    (uid ∈ selected →
      ((isMinOf index (selectionPositions messages selected) ∨
        isMaxOf index (selectionPositions messages selected)) →
        toggleSelection messages selected uid index = selected.erase uid) ∧
      (¬ isMinOf index (selectionPositions messages selected) →
       ¬ isMaxOf index (selectionPositions messages selected) →
        toggleSelection messages selected uid index = selected)) ∧
    (uid ∉ selected → selected = [] →
      toggleSelection messages selected uid index = [uid]) ∧
    (uid ∉ selected → selected ≠ [] →
      (((∃ mn, isMinOf mn (selectionPositions messages selected) ∧ index + 1 = mn) ∨
        (∃ mx, isMaxOf mx (selectionPositions messages selected) ∧ index = mx + 1)) →
        toggleSelection messages selected uid index = selected ++ [uid]) ∧
      (¬ ((∃ mn, isMinOf mn (selectionPositions messages selected) ∧ index + 1 = mn) ∨
          (∃ mx, isMaxOf mx (selectionPositions messages selected) ∧ index = mx + 1)) →
        toggleSelection messages selected uid index = selected)) := by
  refine ⟨fun hmem => ⟨?_, ?_⟩, fun hnot hemp => ?_, fun hnot hne => ⟨?_, ?_⟩⟩
  · intro hmm
    have hcond : (selectedIndicesOf messages selected).head? = some index ∨
        (selectedIndicesOf messages selected).getLast? = some index := by
      rcases hmm with hmin | hmax
      · exact Or.inl ((selIdx_head_iff messages selected index).mpr hmin)
      · exact Or.inr ((selIdx_getLast_iff messages selected index).mpr hmax)
    simp only [toggleSelection]
    rw [if_pos hmem, if_pos hcond]
  · intro hnmin hnmax
    have hcond : ¬ ((selectedIndicesOf messages selected).head? = some index ∨
        (selectedIndicesOf messages selected).getLast? = some index) := by
      rintro (hh | hl)
      · exact hnmin ((selIdx_head_iff messages selected index).mp hh)
      · exact hnmax ((selIdx_getLast_iff messages selected index).mp hl)
    simp only [toggleSelection]
    rw [if_pos hmem, if_neg hcond]
  · subst hemp
    simp only [toggleSelection]
    rw [if_neg hnot]
    rfl
  · intro hadj
    obtain ⟨mn, mx, hmn, hmx, hminmn, hmaxmx⟩ := selIdx_nonempty messages selected hsel hne
    have hcond : index + 1 = mn ∨ index = mx + 1 := by
      rcases hadj with ⟨mn2, hm2, he⟩ | ⟨mx2, hm2, he⟩
      · rw [isMinOf_unique hm2 hminmn] at he
        exact Or.inl he
      · rw [isMaxOf_unique hm2 hmaxmx] at he
        exact Or.inr he
    simp only [toggleSelection]
    rw [if_neg hnot, if_neg (by simp [hne]), hmn, hmx]
    simp only [Option.getD_some]
    rw [if_pos hcond]
  · intro hnadj
    obtain ⟨mn, mx, hmn, hmx, hminmn, hmaxmx⟩ := selIdx_nonempty messages selected hsel hne
    have hcond : ¬ (index + 1 = mn ∨ index = mx + 1) := by
      rintro (he | he)
      · exact hnadj (Or.inl ⟨mn, hminmn, he⟩)
      · exact hnadj (Or.inr ⟨mx, hmaxmx, he⟩)
    simp only [toggleSelection]
    rw [if_neg hnot, if_neg (by simp [hne]), hmn, hmx]
    simp only [Option.getD_some]
    rw [if_neg hcond]

/-- Witness for C4: on four stored items `7-1 … 7-4`, toggling into an
empty selection selects one item; toggling the item one past the maximum
extends the run; toggling the maximal selected item removes it. -/
theorem claim_C4_toggle_contiguity_witness :
    toggleSelection wmsgs [] "7-2" 1 = ["7-2"] ∧
    toggleSelection wmsgs ["7-2", "7-3"] "7-4" 3 = ["7-2", "7-3", "7-4"] ∧
    toggleSelection wmsgs ["7-2", "7-3"] "7-3" 2 = ["7-2", "7-3"].erase "7-3" := by
  refine ⟨?_, ?_, ?_⟩
  · exact (claim_C4_toggle_contiguity wmsgs [] "7-2" 1 (by simp) (by decide)).2.1
      (by simp) rfl
  · exact ((claim_C4_toggle_contiguity wmsgs ["7-2", "7-3"] "7-4" 3 (by decide)
      (by decide)).2.2 (by decide) (by decide)).1
      (Or.inr ⟨2, ⟨by decide, by decide⟩, rfl⟩)
  · exact ((claim_C4_toggle_contiguity wmsgs ["7-2", "7-3"] "7-3" 2 (by decide)
      (by decide)).1 (by decide)).1 (Or.inr ⟨by decide, by decide⟩)
